import Mathlib

/-!
Verification of the fpm setup action (src/index.js).

The development shallowly embeds the artifact-filename resolver, the
download candidate cascade of main, the source-build version gate, the
gfortran compiler discovery of installFromSource, and the finalization
effects of both acquisition paths.  External collaborators (network
fetch, process execution, the release-index query) are modelled as
function parameters or as recorded effect values; the call to
core.setFailed is modelled as a recorded failure message, since in the
JavaScript source it does not interrupt execution.
-/

namespace SetupFpm

/-! ### JavaScript string primitives used by the source -/

/-- Model of the JavaScript expression s.replace(ch, ...) with the empty
replacement and a single-character string pattern: it removes the FIRST
occurrence of the character anywhere in the string, not only a leading
occurrence. -/
def removeFirstChar (c : Char) : List Char → List Char
  | [] => []
  | x :: xs => if x = c then xs else x :: removeFirstChar c xs

/-- Model of the JavaScript expression fpmVersion.replace(litV, empty)
used at src/index.js lines 91, 157 and 250: the first letter v anywhere
in the string is removed. -/
def jsReplaceV (s : String) : String := ⟨removeFirstChar 'v' s.data⟩

/-- Model of the JavaScript String.split with a one-character separator,
on the character-list level.  As in JavaScript, the empty string splits
to one empty component, and separators at the ends produce empty
components. -/
def splitListOn (c : Char) : List Char → List (List Char)
  | [] => [[]]
  | x :: xs =>
    if x = c then [] :: splitListOn c xs
    else
      match splitListOn c xs with
      | y :: ys => (x :: y) :: ys
      | [] => [[x]]

/-- Model of the JavaScript String.split with a one-character separator. -/
def splitOnChar (c : Char) (s : String) : List String :=
  (splitListOn c s.data).map (fun l => ⟨l⟩)

/-- Code points trimmed by the JavaScript Number conversion: the
ECMAScript WhiteSpace and LineTerminator sets (tab, line feed,
vertical tab, form feed, carriage return, space, no-break space, Ogham
space mark, the fixed-width spaces U+2000 to U+200A, line separator,
paragraph separator, narrow no-break space, medium mathematical space,
ideographic space and the byte-order mark). -/
def jsWhitespace (c : Char) : Bool :=
  [9, 10, 11, 12, 13, 32, 160, 5760, 8192, 8193, 8194, 8195, 8196, 8197,
   8198, 8199, 8200, 8201, 8202, 8232, 8233, 8239, 8287, 12288,
   65279].contains c.toNat

/-- Result of the JavaScript Number conversion of a string, kept as an
exact value: NaN, a signed infinity, or a finite value reading as
mantissa times 10 to the exp10, negated when the negative flag is set.
Keeping the mantissa and decimal exponent exact avoids committing to a
binary floating-point representation; the two comparisons the program
performs on such values are defined below with the IEEE double
rounding accounted for exactly. -/
inductive JSNum where
  | nan
  | inf (negative : Bool)
  | finite (negative : Bool) (mantissa : Nat) (exp10 : Int)
  deriving DecidableEq

/-- Decimal digit test. -/
def isDecDigit (c : Char) : Bool := 48 ≤ c.toNat && c.toNat ≤ 57

/-- Decimal value of a digit list (most significant first). -/
def digitsToNat (l : List Char) : Nat :=
  l.foldl (fun acc c => acc * 10 + (c.toNat - 48)) 0

/-- Value of one digit in the given radix: 0-9, a-f or A-F below the
radix; none when the character is not a valid digit. -/
def radixDigitVal (radix : Nat) (c : Char) : Option Nat :=
  let v :=
    if 48 ≤ c.toNat && c.toNat ≤ 57 then some (c.toNat - 48)
    else if 97 ≤ c.toNat && c.toNat ≤ 102 then some (c.toNat - 87)
    else if 65 ≤ c.toNat && c.toNat ≤ 70 then some (c.toNat - 55)
    else none
  match v with
  | some d => if d < radix then some d else none
  | none => none

/-- Nonempty all-valid digit string in the given radix, as a number. -/
def parseRadix (radix : Nat) (l : List Char) : Option Nat :=
  if l.isEmpty then none
  else
    l.foldl (fun acc c =>
      match acc, radixDigitVal radix c with
      | some a, some d => some (a * radix + d)
      | _, _ => none) (some 0)

/-- Unsigned non-decimal integer literal of the Number grammar: a 0x,
0o or 0b prefix (either case) followed by digits of that radix.  The
outer none means the body is not of this shape at all; some none means
it has such a prefix but invalid or missing digits (NaN). -/
def parseNonDecimal : List Char → Option (Option Nat)
  | '0' :: c :: rest =>
    if c = 'x' || c = 'X' then some (parseRadix 16 rest)
    else if c = 'o' || c = 'O' then some (parseRadix 8 rest)
    else if c = 'b' || c = 'B' then some (parseRadix 2 rest)
    else none
  | _ => none

/-- Optional exponent part of a decimal literal, which must consume
the whole remainder: the empty remainder gives exponent 0, otherwise
an e or E, an optional sign and a nonempty digit string. -/
def parseExpPart : List Char → Option Int
  | [] => some 0
  | c :: rest =>
    if c = 'e' || c = 'E' then
      match rest with
      | '+' :: ds =>
        if ds ≠ [] && ds.all isDecDigit then some (digitsToNat ds : Nat) else none
      | '-' :: ds =>
        if ds ≠ [] && ds.all isDecDigit then some (-(digitsToNat ds : Int)) else none
      | ds =>
        if ds ≠ [] && ds.all isDecDigit then some (digitsToNat ds : Nat) else none
    else none

/-- Unsigned decimal literal of the Number grammar: integer digits, an
optional dot with optional fraction digits, and an optional exponent,
with at least one digit present.  The result is the concatenated digit
value and the decimal exponent (exponent part minus the number of
fraction digits). -/
def parseDecLiteral (l : List Char) : Option (Nat × Int) :=
  let ip := l.takeWhile isDecDigit
  let r1 := l.dropWhile isDecDigit
  match r1 with
  | '.' :: r2 =>
    let fp := r2.takeWhile isDecDigit
    let r3 := r2.dropWhile isDecDigit
    if ip.isEmpty && fp.isEmpty then none
    else
      match parseExpPart r3 with
      | some e => some (digitsToNat (ip ++ fp), e - (fp.length : Int))
      | none => none
  | _ =>
    if ip.isEmpty then none
    else
      match parseExpPart r1 with
      | some e => some (digitsToNat ip, e)
      | none => none

/-- Model of the JavaScript Number conversion of a string, as applied
by versionParts.map(Number) at src/index.js line 92, following the
StringNumericLiteral grammar of ECMA-262: trim WhiteSpace and
LineTerminator code points at both ends, convert the empty remainder
to 0, accept an optionally signed decimal literal (digits, optional
fraction, optional exponent) or Infinity, or an unsigned hexadecimal,
octal or binary integer literal, and convert everything else to NaN.
The exact mathematical value is kept as mantissa and decimal exponent.
(For decimal literals with more than 20 significant digits ECMA-262
grants implementations rounding latitude; this model keeps the exact
value, matching engines that round correctly.) -/
def jsNumber (s : String) : JSNum :=
  let t := ((s.data.dropWhile (fun c => jsWhitespace c)).reverse.dropWhile
            (fun c => jsWhitespace c)).reverse
  match t with
  | [] => JSNum.finite false 0 0
  | _ =>
    let hasSign := t.head? == some '-' || t.head? == some '+'
    let neg := t.head? == some '-'
    let body := if hasSign then t.tail else t
    if body = "Infinity".data then JSNum.inf neg
    else
      match parseNonDecimal body with
      | some r =>
        if hasSign then JSNum.nan
        else
          match r with
          | some m => JSNum.finite false m 0
          | none => JSNum.nan
      | none =>
        match parseDecLiteral body with
        | some (m, e) => JSNum.finite neg m e
        | none => JSNum.nan

/-- Characters strictly before the last slash of a path, or none when
the path has no slash. -/
def beforeLastSlash : List Char → Option (List Char)
  | [] => none
  | c :: rest =>
    match beforeLastSlash rest with
    | some l => some (c :: l)
    | none => if c = '/' then some [] else none

/-- Model of the Node path.dirname function (src/index.js line 113) for
the plain slash-separated paths produced by the download step: the part
of the path before its last slash, with dot for slash-free paths and
the root for paths whose only slash is leading. -/
def dirname (p : String) : String :=
  match beforeLastSlash p.data with
  | none => "."
  | some [] => "/"
  | some l => ⟨l⟩

/-! ### Filename resolver (src/index.js lines 153 to 185) -/

/-- Architecture token chosen at src/index.js lines 160 to 165: the
variable starts at x86_64, arm64 maps to arm64, x64 maps to x86_64, and
every other value keeps the x86_64 default. -/
def fpmArchName (arch : String) : String :=
  if arch = "arm64" then "arm64"
  else if arch = "x64" then "x86_64"
  else "x86_64"

/-- Embedding of getFPMFilename (src/index.js lines 153 to 185),
returning both the built filename and the list of failure messages
recorded through core.setFailed while building it.  The JavaScript
function keeps executing after setFailed, so on an unknown platform it
still returns the partially built name. -/
def getFPMFilenameE (fpmVersion platform arch compiler : String) :
    String × List String :=
  let filename := "fpm-"
  let filename := filename ++ (jsReplaceV fpmVersion ++ "-")
  let fpmArch := fpmArchName arch
  let (filename, failures) :=
    if platform = "linux" then (filename ++ ("linux-" ++ fpmArch), ([] : List String))
    else if platform = "darwin" then (filename ++ ("macos-" ++ fpmArch), [])
    else if platform = "win32" then (filename ++ ("windows-" ++ fpmArch), [])
    else (filename, ["Unknown platform"])
  let filename := if compiler ≠ "" then filename ++ ("-" ++ compiler) else filename
  let filename := if platform = "win32" then filename ++ ".exe" else filename
  (filename, failures)

/-- Return value of getFPMFilename.  The fourth argument models the
optional compiler parameter, whose JavaScript default is the empty
string. -/
def getFPMFilename (fpmVersion platform arch compiler : String) : String :=
  (getFPMFilenameE fpmVersion platform arch compiler).1

/-! ### Version gate (src/index.js lines 90 to 102) -/

/-- True when the IEEE double nearest to the exact value m times 10 to
the e is zero: the exact value must satisfy v ≤ 2 ^ (-1075), since
nonzero reals up to half the smallest subnormal 2 ^ (-1074) round to
zero under round-to-nearest with ties to even (the midpoint itself
ties to the even candidate, which is zero).  The sign is irrelevant
because -0 === 0 holds in JavaScript.  For e ≥ 0 a nonzero mantissa
gives a value of at least 1, so only negative exponents need the
comparison. -/
def finiteRoundsToZero (m : Nat) (e : Int) : Bool :=
  if m = 0 then true
  else
    match e with
    | Int.ofNat _ => false
    | Int.negSucc k => m * 2 ^ 1075 ≤ 10 ^ (k + 1)

/-- True when the IEEE double nearest to the signed exact value is
strictly below 9: zero and negative values qualify, and a positive
value qualifies exactly when it is below 9 - 2 ^ (-50), the midpoint
between the double 9 and its predecessor 9 - 2 ^ (-49); the midpoint
itself ties to 9, whose mantissa is even, so it does not qualify.  For
e ≥ 1 a nonzero mantissa gives an integer value of at least 10, so
only the e = 0 and e < 0 cases need the comparison. -/
def finiteLtNine (negative : Bool) (m : Nat) (e : Int) : Bool :=
  if m = 0 then true
  else if negative then true
  else
    match e with
    | Int.ofNat 0 => m ≤ 8
    | Int.ofNat (_ + 1) => false
    | Int.negSucc k => m * 2 ^ 50 < (9 * 2 ^ 50 - 1) * 10 ^ (k + 1)

/-- Model of the JavaScript comparison x === 0 on a conversion result:
NaN and the infinities compare false, a finite value compares true
exactly when its double rounds to zero. -/
def jsNumEqZero : JSNum → Bool
  | JSNum.finite _ m e => finiteRoundsToZero m e
  | _ => false

/-- Model of the JavaScript comparison x < 9 on a conversion result:
NaN compares false, minus infinity true, plus infinity false, and a
finite value by its double against 9. -/
def jsNumLtNine : JSNum → Bool
  | JSNum.nan => false
  | JSNum.inf negative => negative
  | JSNum.finite negative m e => finiteLtNine negative m e

/-- Model of versionParts[0] === 0 where the array element may be
missing: undefined compares unequal to 0, as in JavaScript. -/
def jsStrictEqZero : Option JSNum → Bool
  | some n => jsNumEqZero n
  | none => false

/-- Model of versionParts[1] < 9 where the array element may be
missing: undefined makes the comparison false, as in JavaScript. -/
def jsLtNine : Option JSNum → Bool
  | some n => jsNumLtNine n
  | none => false

/-- Embedding of the isOldVersion computation at src/index.js lines 91
to 93: strip the first v, split on dots, convert the components with
Number, and test versionParts[0] === 0 && versionParts[1] < 9. -/
def isOldVersion (fpmVersion : String) : Bool :=
  let versionParts := (splitOnChar '.' (jsReplaceV fpmVersion)).map jsNumber
  jsStrictEqZero (versionParts.get? 0) && jsLtNine (versionParts.get? 1)

/-- Version gate of the specification: source build is supported
exactly when the code does not classify the version as old. -/
def supportsSourceBuild (fpmVersion : String) : Bool :=
  ! isOldVersion fpmVersion

/-- Dot-component number i of the v-stripped version string, as the
gate sees it; none models a missing component. -/
def gateComponent (i : Nat) (v : String) : Option String :=
  (splitOnChar '.' (jsReplaceV v)).get? i

/-! ### Candidate cascade (src/index.js lines 54 to 110) -/

/-- Compiler suffix list tried after the bare filename, in the order
written at src/index.js line 65. -/
def compilers : List String := ["gcc-10", "gcc-11", "gcc-12", "gcc-13", "gcc-14"]

/-- Ordered candidate list of the acquisition cascade: the untagged
filename attempted in the try block at line 60, then the five tagged
filenames attempted by the loop at lines 69 to 83. -/
def candidateList (fpmVersion platform arch : String) : List String :=
  getFPMFilename fpmVersion platform arch "" ::
    compilers.map (fun c => getFPMFilename fpmVersion platform arch c)

/-- Cascade over a candidate list, for a fetch stub returning some
result on success and none on a fetch error: candidates are tried
strictly in order, a failure moves on to the next candidate, and the
first success is returned together with the candidate that produced
it.  This is the net control flow of the try block at line 56 plus the
loop at lines 69 to 83. -/
def attemptCandidates {α : Type} (fetch : String → Option α) :
    List String → Option (α × String)
  | [] => none
  | c :: rest =>
    match fetch c with
    | some r => some (r, c)
    | none => attemptCandidates fetch rest

/-- Candidates actually attempted by the cascade, in order. -/
def attemptedCandidates {α : Type} (fetch : String → Option α) :
    List String → List String
  | [] => []
  | c :: rest =>
    match fetch c with
    | some _ => [c]
    | none => c :: attemptedCandidates fetch rest

/-- Failure message recorded at src/index.js line 108. -/
def fetchFailedMsg : String :=
  "Error while trying to fetch fpm - please check that a version exists at the above release url."

/-- Failure message recorded at src/index.js lines 96 to 100. -/
def oldVersionMsg (fpmVersion : String) : String :=
  "Building fpm " ++ fpmVersion ++ " from source is not supported on macOS ARM64.\n" ++
  "Please use fpm v0.9.0 or later, which has a working install.sh script.\n" ++
  "For example, set fpm-version to \"v0.9.0\", \"v0.10.1\" or \"latest\"."

/-- Outcome of the download phase of main. -/
inductive MainOutcome (α : Type) where
  | downloaded (fpmPath : α) (candidate : String)
  | sourceBuild (fpmVersion : String)
  | sourceBuildIneligible (msg : String)
  | fetchFailed (msg : String)
  deriving DecidableEq

/-- Embedding of the download phase of main (src/index.js lines 54 to
110).  When every candidate fails, the code falls back to a source
build only on darwin with arm64, and there only when the version gate
does not classify the version as old; on the old versions it records
the ineligibility message and returns, and on every other platform or
architecture it records the fetch failure message.  (After that message
the JavaScript code falls through with an undefined download path and
the surrounding catch also fails the action, so the fetchFailed outcome
is terminal.) -/
def mainAcquire {α : Type} (fetch : String → Option α)
    (fpmVersion platform arch : String) : MainOutcome α :=
  match attemptCandidates fetch (candidateList fpmVersion platform arch) with
  | some (p, c) => MainOutcome.downloaded p c
  | none =>
    if platform = "darwin" ∧ arch = "arm64" then
      if isOldVersion fpmVersion then
        MainOutcome.sourceBuildIneligible (oldVersionMsg fpmVersion)
      else MainOutcome.sourceBuild fpmVersion
    else MainOutcome.fetchFailed fetchFailedMsg

/-! ### Latest-version resolution (src/index.js lines 25 to 50) -/

/-- Failure message recorded at src/index.js line 28. -/
def tokenRequiredMsg : String :=
  "To fetch the latest fpm version, please supply a github token. Alternatively you can specify the fpm release version manually."

/-- Failure message recorded at src/index.js line 37. -/
def latestQueryErrMsg : String :=
  "Error while querying the latest fpm release version - please check your github token."

/-- Embedding of the latest-version block of main (src/index.js lines
25 to 41).  The queryLatest argument models the awaited
getLatestReleaseVersion call: some tag when it returns, none when it
throws.  The result is the version variable afterwards together with
the failure messages recorded through core.setFailed; neither setFailed
call stops execution. -/
def resolveVersion (fpmVersion token : String) (queryLatest : Option String) :
    String × List String :=
  if fpmVersion = "latest" then
    let failures := if token = "none" then [tokenRequiredMsg] else []
    match queryLatest with
    | some tag => (tag, failures)
    | none => (fpmVersion, failures ++ [latestQueryErrMsg])
  else (fpmVersion, [])

/-- Download directory URL prefix built at src/index.js line 49. -/
def fetchPath (fpmRepo fpmVersion : String) : String :=
  fpmRepo ++ ("/releases/download/" ++ (fpmVersion ++ "/"))

/-- URL of the first (untagged) download attempt, src/index.js lines
49 to 60. -/
def firstDownloadURL (fpmRepo fpmVersion platform arch : String) : String :=
  fetchPath fpmRepo fpmVersion ++ getFPMFilename fpmVersion platform arch ""

/-! ### Compiler discovery (src/index.js lines 210 to 248) -/

/-- Versioned gfortran suffixes probed by the loop at src/index.js line
226, in the order written there. -/
def gfortranVersions : List Nat := [13, 12, 11, 10]

/-- First version in the list for which the probe finds the
corresponding versioned gfortran binary; the loop at src/index.js lines
226 to 236 breaks on the first hit. -/
def probeVersioned (probe : String → Bool) : List Nat → Option Nat
  | [] => none
  | v :: rest =>
    if probe ("gfortran-" ++ toString v) then some v
    else probeVersioned probe rest

/-- Remediation message recorded at src/index.js lines 239 to 245. -/
def gfortranNotFoundMsg : String :=
  "gfortran is required to build fpm from source on macOS ARM64.\n" ++
  "Please install gcc version 10-13 before running this action, for example:\n" ++
  "  - name: Install gfortran\n" ++
  "    run: brew install gcc@13\n" ++
  "Or use fortran-lang/setup-fortran to install a Fortran compiler."

/-- Result of compiler discovery. -/
inductive GfortranResult where
  | found (cmd : String)
  | compilerNotFound (msg : String)
  deriving DecidableEq

/-- Embedding of the compiler discovery of installFromSource
(src/index.js lines 210 to 248).  The probe argument models the shelled
which query.  The unversioned binary is probed first, but the condition
guarding the versioned loop reads (!foundGfortran || true) and is
therefore always taken, so the versioned candidates are always probed
and a versioned hit always wins; the unversioned binary is used only
when no versioned candidate matched, and when nothing matched at all
the remediation message is recorded. -/
def findGfortran (probe : String → Bool) : GfortranResult :=
  let foundGfortran := probe "gfortran"
  match probeVersioned probe gfortranVersions with
  | some v => GfortranResult.found ("gfortran-" ++ toString v)
  | none =>
    if foundGfortran then GfortranResult.found "gfortran"
    else GfortranResult.compilerNotFound gfortranNotFoundMsg

/-! ### Finalization effects of the two acquisition paths -/

/-- Externally visible effects performed by the embedded fragments.
The exec constructor is a plain command-line invocation (the only one
in the embedded code is the chmod call), execScript is the bash
invocation of the install script, and the rest mirror the tool-cache,
io and core calls of the source. -/
inductive Effect where
  | exec (cmd : String)
  | execScript (script prefixArg : String)
  | mv (src dst : String)
  | addPath (dir : String)
  | downloadTool (url : String)
  | mkdirP (dir : String)
  | extractTar (tarball dest : String)
  | rmRF (dir : String)
  deriving DecidableEq

/-- True on the chmod-style plain exec effect. -/
def isExecEffect : Effect → Bool
  | Effect.exec _ => true
  | _ => false

/-- True on a rename effect. -/
def isMvEffect : Effect → Bool
  | Effect.mv _ _ => true
  | _ => false

/-- True on a PATH registration effect. -/
def isAddPathEffect : Effect → Bool
  | Effect.addPath _ => true
  | _ => false

/-- Effects performed by main after a successful download
(src/index.js lines 112 to 135): chmod on linux and darwin, rename to
fpm or fpm.exe inside the download directory, and PATH registration of
that directory. -/
def finalizeDownload (platform fpmPath : String) : List Effect :=
  let downloadDir := dirname fpmPath
  (if platform = "linux" || platform = "darwin"
   then [Effect.exec ("chmod u+x " ++ fpmPath)] else [])
  ++ [if platform = "win32"
      then Effect.mv fpmPath (downloadDir ++ ("/" ++ "fpm.exe"))
      else Effect.mv fpmPath (downloadDir ++ ("/" ++ "fpm"))]
  ++ [Effect.addPath downloadDir]

/-- Effects performed by a fully successful run of installFromSource
after compiler discovery (src/index.js lines 250 to 290), with
path.join modelled as slash concatenation.  The runnerTemp and home
arguments model the RUNNER_TEMP and HOME environment variables, and
tarballPath models the local path returned by the tarball download.
Note that the program itself performs no chmod and no rename on this
path: binary placement is delegated to the invoked install script, and
the program only registers the install bin directory on the PATH and
then removes the build directory. -/
def installFromSourceEffects
    (fpmVersion fpmRepo runnerTemp home tarballPath : String) : List Effect :=
  let versionNumber := jsReplaceV fpmVersion
  let tarballUrl := fpmRepo ++ ("/archive/refs/tags/" ++ (fpmVersion ++ ".tar.gz"))
  let buildDir := runnerTemp ++ "/fpm-build"
  let installPrefixDir := home ++ "/.local"
  let installDir := installPrefixDir ++ "/bin"
  let fpmSourceDir := buildDir ++ ("/fpm-" ++ versionNumber)
  let installScript := fpmSourceDir ++ "/install.sh"
  [Effect.downloadTool tarballUrl,
   Effect.mkdirP buildDir,
   Effect.extractTar tarballPath buildDir,
   Effect.mkdirP installDir,
   Effect.execScript installScript ("--prefix=" ++ installPrefixDir),
   Effect.addPath installDir,
   Effect.rmRF buildDir]

/-! ### Source pipeline step trace (src/index.js lines 206 to 298) -/

/-- Stages of the source build pipeline after compiler discovery, in
the order they appear inside the try block of installFromSource. -/
inductive SrcStep where
  | downloadTarball
  | makeBuildDir
  | extractTarball
  | makeInstallDir
  | runInstallScript
  | registerPath
  | cleanupBuildDir
  deriving DecidableEq

/-- Pipeline stages in source order: download at line 255, mkdirP at
line 259, extractTar at line 262, mkdirP at line 273, install script at
line 277, addPath at line 286, rmRF at line 290. -/
def srcPipelineSteps : List SrcStep :=
  [SrcStep.downloadTarball, SrcStep.makeBuildDir, SrcStep.extractTarball,
   SrcStep.makeInstallDir, SrcStep.runInstallScript, SrcStep.registerPath,
   SrcStep.cleanupBuildDir]

/-- Steps executed and overall success, for a stub telling which steps
throw: the try block runs the steps in order and the first throwing
step transfers control to the catch at line 292, which records a
failure; every later step, the cleanup included, is skipped. -/
def runSteps (fails : SrcStep → Bool) : List SrcStep → List SrcStep × Bool
  | [] => ([], true)
  | s :: rest =>
    if fails s then ([s], false)
    else (s :: (runSteps fails rest).1, (runSteps fails rest).2)

/-- Step trace of one installFromSource run under a failure stub. -/
def runSrcPipeline (fails : SrcStep → Bool) : List SrcStep × Bool :=
  runSteps fails srcPipelineSteps

/-! ### Specification-side definitions for refinement statements -/

/-- Filename formula as the amended resolver claim states it, built in
the fixed order version, os token, arch token, compiler tag, extension:
fpm- then the version with its first v removed, the os token from
linux, darwin or win32, the arch token arm64 or the x86_64 default, the
optional tag, and .exe exactly on win32. -/
def resolverSpecFilename (version platform arch compiler : String) : String :=
  "fpm-" ++ jsReplaceV version ++ "-" ++
  (if platform = "linux" then "linux"
   else if platform = "darwin" then "macos" else "windows") ++ "-" ++
  (if arch = "arm64" then "arm64" else "x86_64") ++
  (if compiler ≠ "" then "-" ++ compiler else "") ++
  (if platform = "win32" then ".exe" else "")

/-! ## Shared lemmas -/

theorem attemptCandidates_cons_none {α : Type} (fetch : String → Option α)
    (c : String) (rest : List String) (h : fetch c = none) :
    attemptCandidates fetch (c :: rest) = attemptCandidates fetch rest := by
  simp [attemptCandidates, h]

theorem attemptCandidates_cons_some {α : Type} (fetch : String → Option α)
    (c : String) (rest : List String) (r : α) (h : fetch c = some r) :
    attemptCandidates fetch (c :: rest) = some (r, c) := by
  simp [attemptCandidates, h]

theorem attemptedCandidates_cons_none {α : Type} (fetch : String → Option α)
    (c : String) (rest : List String) (h : fetch c = none) :
    attemptedCandidates fetch (c :: rest) = c :: attemptedCandidates fetch rest := by
  simp [attemptedCandidates, h]

theorem attemptedCandidates_cons_some {α : Type} (fetch : String → Option α)
    (c : String) (rest : List String) (r : α) (h : fetch c = some r) :
    attemptedCandidates fetch (c :: rest) = [c] := by
  simp [attemptedCandidates, h]

theorem probeVersioned_eq_find (probe : String → Bool) (l : List Nat) :
    probeVersioned probe l = l.find? (fun v => probe ("gfortran-" ++ toString v)) := by
  induction l with
  | nil => rfl
  | cons a as ih =>
    by_cases h : probe ("gfortran-" ++ toString a) = true <;>
      simp [probeVersioned, List.find?_cons, h, ih]

theorem jsStrictEqZero_eq_true (x : Option JSNum) :
    jsStrictEqZero x = true ↔ ∃ n, x = some n ∧ jsNumEqZero n = true := by
  rcases x with _ | n <;> simp [jsStrictEqZero]

theorem jsLtNine_eq_true (x : Option JSNum) :
    jsLtNine x = true ↔ ∃ n, x = some n ∧ jsNumLtNine n = true := by
  rcases x with _ | n <;> simp [jsLtNine]

/-! ## Claim C1 -/

/-- C1: for every fetch behaviour and every candidate list the cascade
attempts candidates strictly in order; a fetch error on one candidate
moves on to the next rather than aborting, and the first successful
candidate is returned at once, with no later candidate attempted. -/
theorem cascade_in_order_first_success {α : Type} (fetch : String → Option α) :
    (∀ c rest, fetch c = none →
        attemptCandidates fetch (c :: rest) = attemptCandidates fetch rest ∧
        attemptedCandidates fetch (c :: rest) = c :: attemptedCandidates fetch rest) ∧
    (∀ pre c post r, (∀ x ∈ pre, fetch x = none) → fetch c = some r →
        attemptCandidates fetch (pre ++ c :: post) = some (r, c) ∧
        attemptedCandidates fetch (pre ++ c :: post) = pre ++ [c]) := by
  constructor
  · intro c rest h
    exact ⟨attemptCandidates_cons_none fetch c rest h,
           attemptedCandidates_cons_none fetch c rest h⟩
  · intro pre c post r hpre hc
    induction pre with
    | nil =>
      exact ⟨attemptCandidates_cons_some fetch c post r hc,
             attemptedCandidates_cons_some fetch c post r hc⟩
    | cons a as ih =>
      have ha : fetch a = none := hpre a (by simp)
      have hs : ∀ x ∈ as, fetch x = none := fun x hx => hpre x (by simp [hx])
      obtain ⟨ih1, ih2⟩ := ih hs
      constructor
      · simpa [attemptCandidates_cons_none fetch a _ ha] using ih1
      · simpa [attemptedCandidates_cons_none fetch a _ ha] using ih2

/-- Witness for C1 on a concrete fetch stub over a concrete candidate
list: the first candidate fails, the second succeeds and is returned,
and the third is never attempted. -/
theorem cascade_in_order_first_success_witness :
    attemptCandidates (fun s => if s = "fpm-b" then some 1 else none)
        ["fpm-a", "fpm-b", "fpm-c"] = some (1, "fpm-b") ∧
    attemptedCandidates (fun s => if s = "fpm-b" then some 1 else none)
        ["fpm-a", "fpm-b", "fpm-c"] = ["fpm-a", "fpm-b"] := by
  have h := (cascade_in_order_first_success
      (fun s => if s = "fpm-b" then some 1 else none)).2
      ["fpm-a"] "fpm-b" ["fpm-c"] 1 (by intro x hx; simp at hx; simp [hx]) (by simp)
  simpa using h

/-! ## Claim C2 -/

/-- C2: for every version, platform and arch the candidate list has
exactly 1 + 5 entries, the untagged filename first, followed by the
tagged filenames in the fixed ascending order gcc-10 to gcc-14. -/
theorem candidateList_six_entries (fpmVersion platform arch : String) :
    (candidateList fpmVersion platform arch).length = 1 + compilers.length ∧
    compilers.length = 5 ∧
    (candidateList fpmVersion platform arch).head? =
      some (getFPMFilename fpmVersion platform arch "") ∧
    (candidateList fpmVersion platform arch).tail =
      [getFPMFilename fpmVersion platform arch "gcc-10",
       getFPMFilename fpmVersion platform arch "gcc-11",
       getFPMFilename fpmVersion platform arch "gcc-12",
       getFPMFilename fpmVersion platform arch "gcc-13",
       getFPMFilename fpmVersion platform arch "gcc-14"] :=
  ⟨rfl, rfl, rfl, rfl⟩

/-! ## Claim C3 -/

/-- C3 counterexample: the claim says the resolved filename strips only
a LEADING v from the version, so for the version 1v it demands
fpm-1v-linux-x86_64; the code removes the first v anywhere in the
string and produces fpm-1-linux-x86_64 instead. -/
theorem resolver_removes_first_v_anywhere :
    getFPMFilename "1v" "linux" "x64" "" = "fpm-1-linux-x86_64" ∧
    getFPMFilename "1v" "linux" "x64" "" ≠ "fpm-1v-linux-x86_64" :=
  ⟨rfl, by decide⟩

/-- C3 amended: for every version, arch and optional tag and every
platform among linux, darwin and win32 the resolved filename is exactly
fpm- plus the version with its FIRST v occurrence removed (equal to the
leading-v strip on conventional vX.Y.Z tags), the os token, the arch
token (arm64 for arm64 and x86_64 for every other arch), the optional
tag, and .exe exactly on windows, in that fixed order, with no failure
recorded. -/
theorem resolver_matches_spec_formula (version arch compiler platform : String)
    (h : platform = "linux" ∨ platform = "darwin" ∨ platform = "win32") :
    getFPMFilenameE version platform arch compiler =
      (resolverSpecFilename version platform arch compiler, []) := by
  have hl : ("linux-" : String) = "linux" ++ "-" := by decide
  have hm : ("macos-" : String) = "macos" ++ "-" := by decide
  have hw : ("windows-" : String) = "windows" ++ "-" := by decide
  rcases h with h | h | h <;> subst h <;>
    by_cases hc : compiler = "" <;>
    by_cases ha : arch = "arm64" <;>
    by_cases hx : arch = "x64" <;>
    simp_all [getFPMFilenameE, resolverSpecFilename, fpmArchName, hl, hm, hw,
      String.append_assoc, String.append_empty]

/-- Witness for C3 amended at a concrete input on each platform. -/
theorem resolver_matches_spec_formula_witness :
    getFPMFilenameE "v0.9.0" "win32" "arm64" "gcc-12" =
      (resolverSpecFilename "v0.9.0" "win32" "arm64" "gcc-12", []) ∧
    getFPMFilenameE "v0.9.0" "darwin" "arm64" "" =
      (resolverSpecFilename "v0.9.0" "darwin" "arm64" "", []) := by
  exact ⟨resolver_matches_spec_formula "v0.9.0" "arm64" "gcc-12" "win32" (by simp),
         resolver_matches_spec_formula "v0.9.0" "arm64" "" "darwin" (by simp)⟩

/-! ## Claim C9 -/

/-- C9: on every platform outside linux, darwin and win32 the resolver
records the unknown-platform failure but does not short-circuit: it
still returns the partially built filename, which carries no os or arch
token (and no .exe), and execution continues with that value. -/
theorem unknown_platform_partial_filename (version platform arch compiler : String)
    (h1 : platform ≠ "linux") (h2 : platform ≠ "darwin") (h3 : platform ≠ "win32") :
    getFPMFilenameE version platform arch compiler =
      ("fpm-" ++ (jsReplaceV version ++ "-") ++
         (if compiler ≠ "" then "-" ++ compiler else ""),
       ["Unknown platform"]) := by
  by_cases hc : compiler = "" <;>
    simp [getFPMFilenameE, h1, h2, h3, hc, String.append_assoc, String.append_empty]

/-- Witness for C9 at the concrete platform freebsd: the resolver
returns the partial name with the recorded failure. -/
theorem unknown_platform_partial_filename_witness :
    getFPMFilenameE "v0.9.0" "freebsd" "x64" "gcc-10" =
      ("fpm-0.9.0--gcc-10", ["Unknown platform"]) := by
  have h := unknown_platform_partial_filename "v0.9.0" "freebsd" "x64" "gcc-10"
    (by decide) (by decide) (by decide)
  exact h.trans (by decide)

/-! ## Claim C4 -/

/-- C4 counterexample: the claim says the gate permits source build
whenever parsing fails to produce two integers (fail-open); for the
version v.8 the first dot-component is the empty string, which is not
an integer numeral, so the claim demands supportsSourceBuild = true,
but the JavaScript Number conversion turns the empty string into 0, so
the code treats v.8 as major 0 minor 8 and refuses. -/
theorem gate_refuses_empty_component :
    supportsSourceBuild "v.8" = false ∧ gateComponent 0 "v.8" = some "" :=
  ⟨rfl, rfl⟩

/-- C4 amended: the gate refuses source build exactly when the first
dot-component of the v-stripped version converts under the JavaScript
Number conversion to a value whose nearest double is zero and the
second converts to minus infinity or a value whose nearest double is
below 9.  Components that fail numeric conversion give NaN and fail
open, and a missing second component fails open; but the empty string
converts to 0, and JavaScript-numeric forms such as 0x0 and 0e1 also
convert to 0, so versions like v.8, v0x0.8 and v0e1.8 are refused.
The examples of the claim hold: v0.8.0 is refused, v0.9.0 and v1.2.0
are permitted. -/
theorem gate_characterization :
    (∀ v, supportsSourceBuild v = false ↔
        (∃ s, gateComponent 0 v = some s ∧ jsNumEqZero (jsNumber s) = true) ∧
        (∃ s, gateComponent 1 v = some s ∧ jsNumLtNine (jsNumber s) = true)) ∧
    supportsSourceBuild "v0.8.0" = false ∧
    supportsSourceBuild "v0.9.0" = true ∧
    supportsSourceBuild "v1.2.0" = true ∧
    jsNumber "" = JSNum.finite false 0 0 ∧
    jsNumber "0x0" = JSNum.finite false 0 0 ∧
    jsNumber "0e1" = JSNum.finite false 0 1 ∧
    jsNumEqZero (jsNumber "0x0") = true ∧
    jsNumEqZero (jsNumber "0e1") = true ∧
    jsNumber "-Infinity" = JSNum.inf true ∧
    supportsSourceBuild "v0x0.8" = false ∧
    supportsSourceBuild "v0e1.8" = false ∧
    supportsSourceBuild "v0.-Infinity" = false ∧
    (∀ s, jsNumber s = JSNum.nan →
        jsNumEqZero (jsNumber s) = false ∧ jsNumLtNine (jsNumber s) = false) := by
  refine ⟨fun v => ?_, rfl, rfl, rfl, rfl, rfl, rfl, rfl, rfl, rfl, rfl, rfl, rfl, ?_⟩
  · have e0 := List.get?_map jsNumber (splitOnChar '.' (jsReplaceV v)) 0
    have e1 := List.get?_map jsNumber (splitOnChar '.' (jsReplaceV v)) 1
    simp only [supportsSourceBuild, isOldVersion, gateComponent,
      Bool.not_eq_false', Bool.and_eq_true, jsStrictEqZero_eq_true,
      jsLtNine_eq_true, e0, e1, Option.map_eq_some']
    constructor
    · rintro ⟨⟨n0, ⟨s0, h0, rfl⟩, hp0⟩, ⟨n1, ⟨s1, h1, rfl⟩, hp1⟩⟩
      exact ⟨⟨s0, h0, hp0⟩, ⟨s1, h1, hp1⟩⟩
    · rintro ⟨⟨s0, h0, hp0⟩, ⟨s1, h1, hp1⟩⟩
      exact ⟨⟨jsNumber s0, ⟨s0, h0, rfl⟩, hp0⟩, ⟨jsNumber s1, ⟨s1, h1, rfl⟩, hp1⟩⟩
  · intro s h
    rw [h]
    exact ⟨rfl, rfl⟩

/-! ## Claim C5 -/

/-- C5: the source build pipeline is entered exactly when the platform
is darwin, the arch is arm64, every candidate download failed and the
version gate permits; when all candidates fail on any other platform or
arch pairing the outcome is the terminal fetch failure with no source
fallback, and when the gate refuses the outcome is the ineligibility
failure instead of a build. -/
theorem sourceBuild_gate_exact {α : Type} (fetch : String → Option α)
    (fpmVersion platform arch : String) :
    (mainAcquire fetch fpmVersion platform arch = MainOutcome.sourceBuild fpmVersion ↔
        platform = "darwin" ∧ arch = "arm64" ∧
        attemptCandidates fetch (candidateList fpmVersion platform arch) = none ∧
        supportsSourceBuild fpmVersion = true) ∧
    (attemptCandidates fetch (candidateList fpmVersion platform arch) = none →
        ¬(platform = "darwin" ∧ arch = "arm64") →
        mainAcquire fetch fpmVersion platform arch =
          MainOutcome.fetchFailed fetchFailedMsg) ∧
    (attemptCandidates fetch (candidateList fpmVersion platform arch) = none →
        platform = "darwin" → arch = "arm64" → isOldVersion fpmVersion = true →
        mainAcquire fetch fpmVersion platform arch =
          MainOutcome.sourceBuildIneligible (oldVersionMsg fpmVersion)) := by
  rcases hA : attemptCandidates fetch (candidateList fpmVersion platform arch)
      with _ | pc
  · refine ⟨?_, ?_, ?_⟩
    · by_cases hp : platform = "darwin" ∧ arch = "arm64"
      · obtain ⟨h1, h2⟩ := hp
        subst h1; subst h2
        cases ho : isOldVersion fpmVersion <;>
          simp [mainAcquire, hA, supportsSourceBuild, ho]
      · simp only [mainAcquire, hA, if_neg hp]
        constructor
        · intro h; exact absurd h (by simp)
        · rintro ⟨h1, h2, _, _⟩; exact absurd ⟨h1, h2⟩ hp
    · intro _ hp
      simp [mainAcquire, hA, if_neg hp]
    · intro _ h1 h2 ho
      subst h1; subst h2
      simp [mainAcquire, hA, ho]
  · refine ⟨?_, ?_, ?_⟩
    · simp [mainAcquire, hA]
    · intro h; exact absurd h (by simp [hA])
    · intro h; exact absurd h (by simp [hA])

/-- Witness for C5 under a fetch stub that fails on every candidate:
on darwin arm64 with v0.9.0 the outcome is the source build, with
v0.8.0 it is the ineligibility failure, and on linux it is the terminal
fetch failure. -/
theorem sourceBuild_gate_exact_witness :
    mainAcquire (fun _ => (none : Option Unit)) "v0.9.0" "darwin" "arm64" =
      MainOutcome.sourceBuild "v0.9.0" ∧
    mainAcquire (fun _ => (none : Option Unit)) "v0.8.0" "darwin" "arm64" =
      MainOutcome.sourceBuildIneligible (oldVersionMsg "v0.8.0") ∧
    mainAcquire (fun _ => (none : Option Unit)) "v0.9.0" "linux" "x64" =
      MainOutcome.fetchFailed fetchFailedMsg := by
  refine ⟨?_, ?_, ?_⟩
  · exact ((sourceBuild_gate_exact (fun _ => (none : Option Unit))
      "v0.9.0" "darwin" "arm64").1).mpr ⟨rfl, rfl, rfl, rfl⟩
  · exact (sourceBuild_gate_exact (fun _ => (none : Option Unit))
      "v0.8.0" "darwin" "arm64").2.2 rfl rfl rfl rfl
  · exact (sourceBuild_gate_exact (fun _ => (none : Option Unit))
      "v0.9.0" "linux" "x64").2.1 rfl (by simp)

/-! ## Claim C6 -/

/-- C6: compiler discovery always probes the versioned names in the
fixed descending order 13, 12, 11, 10 (the versioned probe equals a
first-match search over exactly that list) and selects the first
versioned hit regardless of the unversioned probe result; the
unversioned compiler is used only when no versioned candidate matched
but the unversioned one exists, and the discovery fails with the
remediation message exactly when neither is found. -/
theorem compiler_discovery_spec (probe : String → Bool) :
    probeVersioned probe gfortranVersions =
      List.find? (fun v => probe ("gfortran-" ++ toString v)) [13, 12, 11, 10] ∧
    (∀ v, probeVersioned probe gfortranVersions = some v →
        findGfortran probe = GfortranResult.found ("gfortran-" ++ toString v)) ∧
    (probeVersioned probe gfortranVersions = none → probe "gfortran" = true →
        findGfortran probe = GfortranResult.found "gfortran") ∧
    (findGfortran probe = GfortranResult.compilerNotFound gfortranNotFoundMsg ↔
        probeVersioned probe gfortranVersions = none ∧ probe "gfortran" = false) := by
  refine ⟨probeVersioned_eq_find probe gfortranVersions, ?_, ?_, ?_⟩
  · intro v hv; simp [findGfortran, hv]
  · intro hn hp; simp [findGfortran, hn, hp]
  · rcases hv : probeVersioned probe gfortranVersions with _ | v <;>
      cases hp : probe "gfortran" <;> simp [findGfortran, hv, hp]

/-- Witness for C6 on a probe stub where the unversioned gfortran
exists alongside gfortran-11 and gfortran-10: discovery still prefers
the first versioned match, gfortran-11. -/
theorem compiler_discovery_spec_witness :
    findGfortran (fun s => s = "gfortran" || s = "gfortran-11" || s = "gfortran-10") =
      GfortranResult.found "gfortran-11" := by
  have h := (compiler_discovery_spec
      (fun s => s = "gfortran" || s = "gfortran-11" || s = "gfortran-10")).2.1
      11 (by decide)
  exact h.trans (by decide)

/-! ## Claim C7 -/

/-- C7 counterexample: the claim says the three finalization steps are
invoked identically for both acquisition paths, but on a concrete
darwin download the cascade path performs a chmod exec and a rename,
while the source build path performs neither (its only plain exec-style
step is the bash install-script invocation, modelled separately, and it
never renames the binary itself). -/
theorem finalization_paths_differ :
    (finalizeDownload "darwin" "/tmp/dl/artifact").any isExecEffect = true ∧
    (finalizeDownload "darwin" "/tmp/dl/artifact").any isMvEffect = true ∧
    (installFromSourceEffects "v0.9.0" "https://github.com/fortran-lang/fpm"
        "/tmp" "/Users/runner" "/tmp/tarball").any isExecEffect = false ∧
    (installFromSourceEffects "v0.9.0" "https://github.com/fortran-lang/fpm"
        "/tmp" "/Users/runner" "/tmp/tarball").any isMvEffect = false :=
  ⟨rfl, rfl, rfl, rfl⟩

/-- C7 amended: after a cascade download the program chmods on linux
and darwin, renames to fpm (fpm.exe on win32) inside the containing
directory and registers that directory on the PATH; after a source
build the program itself performs no chmod and no rename — binary
placement is delegated to the invoked install script — and its only
finalization step is PATH registration of the install bin directory. -/
theorem finalization_per_path
    (platform fpmPath version repo runnerTemp home tarball : String) :
    (platform = "linux" ∨ platform = "darwin" →
        finalizeDownload platform fpmPath =
          [Effect.exec ("chmod u+x " ++ fpmPath),
           Effect.mv fpmPath (dirname fpmPath ++ ("/" ++ "fpm")),
           Effect.addPath (dirname fpmPath)]) ∧
    finalizeDownload "win32" fpmPath =
      [Effect.mv fpmPath (dirname fpmPath ++ ("/" ++ "fpm.exe")),
       Effect.addPath (dirname fpmPath)] ∧
    (installFromSourceEffects version repo runnerTemp home tarball).filter
        (fun a => isExecEffect a || isMvEffect a) = [] ∧
    (installFromSourceEffects version repo runnerTemp home tarball).filter
        isAddPathEffect = [Effect.addPath (home ++ "/.local" ++ "/bin")] := by
  refine ⟨?_, rfl, rfl, rfl⟩
  rintro (h | h) <;> subst h <;> rfl

/-- Witness for C7 amended on a concrete darwin download path. -/
theorem finalization_per_path_witness :
    finalizeDownload "darwin" "/tmp/dl/a" =
      [Effect.exec ("chmod u+x " ++ "/tmp/dl/a"),
       Effect.mv "/tmp/dl/a" (dirname "/tmp/dl/a" ++ ("/" ++ "fpm")),
       Effect.addPath (dirname "/tmp/dl/a")] :=
  (finalization_per_path "darwin" "/tmp/dl/a" "v" "r" "/t" "/h" "/tb").1 (Or.inr rfl)

theorem runSteps_success_iff (fails : SrcStep → Bool) (l : List SrcStep) :
    (runSteps fails l).2 = true ↔ ∀ s ∈ l, fails s = false := by
  induction l with
  | nil => simp [runSteps]
  | cons a as ih => cases ha : fails a <;> simp [runSteps, ha, ih]

theorem runSteps_mem_last (fails : SrcStep → Bool) (l : List SrcStep)
    (z : SrcStep) (hz : z ∉ l) :
    z ∈ (runSteps fails (l ++ [z])).1 ↔ ∀ s ∈ l, fails s = false := by
  induction l with
  | nil => cases hzf : fails z <;> simp [runSteps, hzf]
  | cons a as ih =>
    have hza : z ≠ a := fun h => hz (by simp [h])
    have hzs : z ∉ as := fun h => hz (by simp [h])
    cases ha : fails a <;> simp [runSteps, ha, hza, ih hzs]

theorem runSteps_append_passed (fails : SrcStep → Bool) (l₁ l₂ : List SrcStep)
    (h : ∀ s ∈ l₁, fails s = false) :
    runSteps fails (l₁ ++ l₂) =
      (l₁ ++ (runSteps fails l₂).1, (runSteps fails l₂).2) := by
  induction l₁ with
  | nil => simp [runSteps]
  | cons a as ih =>
    have ha : fails a = false := h a (by simp)
    have hs : ∀ s ∈ as, fails s = false := fun s hsx => h s (by simp [hsx])
    simp [runSteps, ha, ih hs]

/-! ## Claim C8 -/

/-- C8 counterexample: when the install-script stage throws, the
cleanup stage is never executed, so the workspace is NOT removed
regardless of success; and when only the cleanup stage throws, the
whole pipeline is reported failed even though the install stage ran,
so a cleanup failure does mask a successful install. -/
theorem cleanup_skipped_on_failure :
    SrcStep.cleanupBuildDir ∉
      (runSrcPipeline (fun s => decide (s = SrcStep.runInstallScript))).1 ∧
    (runSrcPipeline (fun s => decide (s = SrcStep.runInstallScript))).2 = false ∧
    (runSrcPipeline (fun s => decide (s = SrcStep.cleanupBuildDir))).2 = false ∧
    SrcStep.runInstallScript ∈
      (runSrcPipeline (fun s => decide (s = SrcStep.cleanupBuildDir))).1 := by
  decide

/-- C8 amended: the build workspace is removed only when every earlier
pipeline stage succeeded (a failure at any stage skips cleanup), the
pipeline succeeds exactly when no stage fails, and a failure of the
cleanup itself marks the whole install failed even though the install
script already ran. -/
theorem cleanup_only_on_success (fails : SrcStep → Bool) :
    (SrcStep.cleanupBuildDir ∈ (runSrcPipeline fails).1 ↔
        ∀ s ∈ srcPipelineSteps, s ≠ SrcStep.cleanupBuildDir → fails s = false) ∧
    ((runSrcPipeline fails).2 = true ↔ ∀ s ∈ srcPipelineSteps, fails s = false) ∧
    ((∀ s ∈ srcPipelineSteps, s ≠ SrcStep.cleanupBuildDir → fails s = false) →
        fails SrcStep.cleanupBuildDir = true →
        (runSrcPipeline fails).2 = false ∧
        SrcStep.runInstallScript ∈ (runSrcPipeline fails).1) := by
  have hmem := runSteps_mem_last fails
      [SrcStep.downloadTarball, SrcStep.makeBuildDir, SrcStep.extractTarball,
       SrcStep.makeInstallDir, SrcStep.runInstallScript, SrcStep.registerPath]
      SrcStep.cleanupBuildDir (by decide)
  have hsucc := runSteps_success_iff fails srcPipelineSteps
  refine ⟨?_, hsucc, ?_⟩
  · refine hmem.trans ?_
    constructor
    · intro h s hsx hne
      simp only [srcPipelineSteps, List.mem_cons, List.not_mem_nil, or_false] at hsx
      rcases hsx with h1 | h1 | h1 | h1 | h1 | h1 | h1 <;> subst h1 <;>
        first
        | exact absurd rfl hne
        | exact h _ (by simp)
    · intro h s hsx
      simp only [List.mem_cons, List.not_mem_nil, or_false] at hsx
      rcases hsx with h1 | h1 | h1 | h1 | h1 | h1 <;> subst h1 <;>
        exact h _ (by simp [srcPipelineSteps]) (by simp)
  · intro h hc
    have hfront : ∀ s ∈ [SrcStep.downloadTarball, SrcStep.makeBuildDir,
        SrcStep.extractTarball, SrcStep.makeInstallDir, SrcStep.runInstallScript,
        SrcStep.registerPath], fails s = false := by
      intro s hsx
      simp only [List.mem_cons, List.not_mem_nil, or_false] at hsx
      rcases hsx with h1 | h1 | h1 | h1 | h1 | h1 <;> subst h1 <;>
        exact h _ (by simp [srcPipelineSteps]) (by simp)
    have heval := runSteps_append_passed fails
      [SrcStep.downloadTarball, SrcStep.makeBuildDir, SrcStep.extractTarball,
       SrcStep.makeInstallDir, SrcStep.runInstallScript, SrcStep.registerPath]
      [SrcStep.cleanupBuildDir] hfront
    have : runSrcPipeline fails =
        ([SrcStep.downloadTarball, SrcStep.makeBuildDir, SrcStep.extractTarball,
          SrcStep.makeInstallDir, SrcStep.runInstallScript, SrcStep.registerPath]
          ++ (runSteps fails [SrcStep.cleanupBuildDir]).1,
         (runSteps fails [SrcStep.cleanupBuildDir]).2) := heval
    rw [this]
    simp [runSteps, hc]

/-- Witness for C8 amended: under a stub where only the cleanup stage
throws, the pipeline is reported failed although the install script
stage was executed. -/
theorem cleanup_only_on_success_witness :
    (runSrcPipeline (fun s => decide (s = SrcStep.cleanupBuildDir))).2 = false ∧
    SrcStep.runInstallScript ∈
      (runSrcPipeline (fun s => decide (s = SrcStep.cleanupBuildDir))).1 :=
  (cleanup_only_on_success (fun s => decide (s = SrcStep.cleanupBuildDir))).2.2
    (by decide) (by decide)

/-! ## Claim C10 -/

/-- C10 counterexample: the claim says that whenever the requested
version is latest and the token is none, the version variable keeps the
value latest; but core.setFailed does not stop execution, the release
query is still attempted, and when it returns a tag that tag replaces
latest, so with token none and a successful query the version becomes
the returned tag. -/
theorem latest_token_none_query_success_uses_tag :
    resolveVersion "latest" "none" (some "v0.10.0") =
      ("v0.10.0", [tokenRequiredMsg]) ∧
    "v0.10.0" ≠ "latest" :=
  ⟨rfl, by decide⟩

/-- C10 amended: with requested version latest, a token equal to none
records the token failure but execution continues and the query is
still attempted; whenever the query throws, the query failure is
recorded, the version variable keeps the value latest and the cascade
still runs, its first attempted URL being of the form
repo/releases/download/latest/fpm-latest-os-arch; when the query
succeeds, the returned tag replaces latest even if the token failure
was recorded. -/
theorem latest_failure_keeps_latest (token fpmRepo arch : String)
    (queryLatest : Option String) :
    (token = "none" →
        tokenRequiredMsg ∈ (resolveVersion "latest" token queryLatest).2) ∧
    (queryLatest = none →
        (resolveVersion "latest" token queryLatest).1 = "latest" ∧
        latestQueryErrMsg ∈ (resolveVersion "latest" token queryLatest).2 ∧
        firstDownloadURL fpmRepo "latest" "linux" arch =
          fpmRepo ++ ("/releases/download/latest/fpm-latest-linux-" ++
            fpmArchName arch)) ∧
    (∀ tag, queryLatest = some tag →
        (resolveVersion "latest" token queryLatest).1 = tag) := by
  refine ⟨?_, ?_, ?_⟩
  · intro h; subst h
    rcases queryLatest with _ | tag <;> simp [resolveVersion]
  · intro h; subst h
    refine ⟨rfl, by simp [resolveVersion], ?_⟩
    have hv : jsReplaceV "latest" = "latest" := rfl
    simp only [firstDownloadURL, fetchPath, getFPMFilename, getFPMFilenameE, hv]
    simp only [String.append_assoc]
    refine congrArg (fun t => fpmRepo ++ t) ?_
    simp [← String.append_assoc]
  · intro tag h; subst h
    rfl

/-- Witness for C10 amended at token none with a throwing query: the
failure is recorded, the version stays latest, and the first URL has
the stated form. -/
theorem latest_failure_keeps_latest_witness :
    tokenRequiredMsg ∈ (resolveVersion "latest" "none" none).2 ∧
    (resolveVersion "latest" "none" none).1 = "latest" ∧
    firstDownloadURL "https://github.com/fortran-lang/fpm" "latest" "linux" "x64" =
      "https://github.com/fortran-lang/fpm" ++
        ("/releases/download/latest/fpm-latest-linux-" ++ fpmArchName "x64") := by
  refine ⟨(latest_failure_keeps_latest "none"
      "https://github.com/fortran-lang/fpm" "x64" none).1 rfl, ?_, ?_⟩
  · exact ((latest_failure_keeps_latest "none"
      "https://github.com/fortran-lang/fpm" "x64" none).2.1 rfl).1
  · exact ((latest_failure_keeps_latest "none"
      "https://github.com/fortran-lang/fpm" "x64" none).2.1 rfl).2.2

end SetupFpm
